import Mathlib

/-!
Shallow embedding of the Patch Tuesday viewer's data-shaping core
(`src/app/page.tsx` and its successor component): the index grouper, the
severity classifier, the record filter/sorter, the summary aggregator and the
month-load state transitions, together with theorems settling the frozen
claims about them.

Modelling conventions:
* JavaScript strings are Lean `String`s; the handful of string operations the
  source uses (`split("-")`, `endsWith(".json")`, `replace(".json", "")`) are
  given structural definitions over `String.data` so that concrete instances
  reduce in the kernel.
* JavaScript numbers (CVSS scores) are modelled as `ℚ`.  Every numeric
  literal the source compares against (0, 3.9, 6.9, 7.0, 8.9, 9.0) and every
  score occurring in the claims is a one-decimal value; such values embed
  order-faithfully into IEEE doubles, so rational comparison agrees with the
  JavaScript comparison on all inputs the claims mention.
* `Array.prototype.sort` with a comparator is, per ES2019, a stable sort; a
  stable sort's output is uniquely determined by the comparator and the input
  order, so it is modelled by `List.insertionSort` (which is stable and
  structurally recursive).
* Fallible steps (a fetch settling, the `sort` comparator dereferencing an
  `undefined` month segment) are modelled with `Except`/`Option`.
-/

namespace PatchSite

/-- Splits a character list at every occurrence of the separator character.
Models the JavaScript expression `file.split("-")` (the separator is the
one-character string `"-"`); like the JavaScript function it always returns at
least one (possibly empty) segment. -/
def splitOnChar (sep : Char) : List Char → List (List Char)
  | [] => [[]]
  | c :: rest =>
    match splitOnChar sep rest with
    | [] => [[c]]
    | h :: t => if c = sep then [] :: h :: t else (c :: h) :: t

/-- JavaScript `file.split("-")`, as a list of Lean strings. -/
def jsSplitDash (s : String) : List String := (splitOnChar '-' s.data).map String.mk

/-- Deletes the first occurrence of `pat` from a character list.  Models
JavaScript `str.replace(".json", "")`, which replaces only the first
occurrence of a string pattern. -/
def dropFirstOcc (pat : List Char) : List Char → List Char
  | [] => []
  | c :: rest =>
    if pat.isPrefixOf (c :: rest) then (c :: rest).drop pat.length
    else c :: dropFirstOcc pat rest

/-- JavaScript `file.endsWith(".json")` (the index `useEffect` accepts `.json`
files only). -/
def hasJsonExt (file : String) : Bool := ".json".data.isSuffixOf file.data

/-- The fixed 12-entry month-abbreviation table `MONTH_ORDER` from the source. -/
def MONTH_ORDER : List String :=
  ["Jan", "Feb", "Mar", "Apr", "May", "Jun", "Jul", "Aug", "Sep", "Oct", "Nov", "Dec"]

/-- Position of the first occurrence of `x` in a list of strings, if any.
Helper for modelling `Array.prototype.indexOf`. -/
def idxOf? (x : String) : List String → Option Nat
  | [] => none
  | y :: l => if y = x then some 0 else (idxOf? x l).map (· + 1)

/-- JavaScript `l.indexOf(x)`: the index of the first occurrence of `x`, or
`-1` when `x` does not occur. -/
def jsIndexOf (l : List String) (x : String) : Int :=
  match idxOf? x l with
  | some i => (i : Int)
  | none => -1

/-- The year key `file.split("-")[0]`.  `split` never returns an empty array,
so the JavaScript index `[0]` is always defined; for a file with no `-` it is
the whole file name. -/
def yearOf (file : String) : String := (jsSplitDash file).headD ""

/-- The month token `file.split("-")[1].replace(".json", "")` used by the sort
comparator.  `none` models the case where `split` produced a single segment
and the JavaScript index `[1]` is `undefined` (on which `.replace` would
throw). -/
def monthTok (file : String) : Option String :=
  ((jsSplitDash file)[1]?).map (fun m => String.mk (dropFirstOcc ".json".data m.data))

/-- The comparator key `MONTH_ORDER.indexOf(month)` of a file.  The default
`0` for a missing month token is never consulted: `sortMonths` only sorts
groups in which every member has a token. -/
def monthKey (file : String) : Int :=
  match monthTok file with
  | some m => jsIndexOf MONTH_ORDER m
  | none => 0

/-- The ordering induced by the comparator
`MONTH_ORDER.indexOf(monthA) - MONTH_ORDER.indexOf(monthB)`: `a` may precede
`b` exactly when the comparator value is nonpositive. -/
def monthLE (a b : String) : Prop := monthKey a ≤ monthKey b

instance : DecidableRel monthLE := fun a b => Int.decLe (monthKey a) (monthKey b)

instance : IsTotal String monthLE := ⟨fun a b => Int.le_total (monthKey a) (monthKey b)⟩

instance : IsTrans String monthLE := ⟨fun _ _ _ h1 h2 => le_trans h1 h2⟩

/-- One year group's `grouped[year].sort(comparator)` call.  A JavaScript sort
of fewer than two elements never invokes the comparator; a stable sort of two
or more elements evaluates the comparator on every element at least once, so
the call throws a `TypeError` exactly when some member's month segment is
missing (`a.split("-")[1]` is `undefined`), and otherwise stably sorts the
group by `monthKey`. -/
def sortMonths (g : List String) : Except String (List String) :=
  if g.length ≤ 1 then .ok g
  else if g.all (fun f => (monthTok f).isSome) then .ok (List.insertionSort monthLE g)
  else .error "TypeError: cannot read property replace of undefined"

/-- One step of the index `forEach` body: append `v` to the bucket of key `k`
(`grouped[year].push(file)`), creating the bucket (`grouped[year] = []`) if it
is not present.  The grouping object is modelled as a clean association list:
the prototype chain that `!grouped[year]` consults in JavaScript is not
modelled, so a year key colliding with an inherited `Object.prototype`
property (e.g. `"constructor"`), on which the program would throw, is grouped
normally here.  Claims about grouping are therefore scoped to runs that
complete, and no theorem asserts that grouping completes on a class of
inputs. -/
def insertGroup : List (String × List String) → String → String → List (String × List String)
  | [], k, v => [(k, [v])]
  | (k', vs) :: rest, k, v =>
    if k' = k then (k', vs ++ [v]) :: rest
    else (k', vs) :: insertGroup rest k v

/-- The `forEach` callback body: `if (!file.endsWith('.json')) return;` then
push the file onto its year bucket. -/
def addFile (g : List (String × List String)) (f : String) : List (String × List String) :=
  if hasJsonExt f then insertGroup g (yearOf f) f else g

/-- The index `forEach` loop: skip files without the `.json` extension and
push every other file onto its year bucket, in input order. -/
def buildGroups (files : List String) : List (String × List String) :=
  files.foldl addFile []

/-- The `for (const year in grouped)` loop that sorts each year bucket.  The
first bucket whose `sort` throws aborts the loop with that error. -/
def sortGroups : List (String × List String) → Except String (List (String × List String))
  | [] => .ok []
  | (y, vs) :: rest =>
    match sortMonths vs, sortGroups rest with
    | .ok g, .ok r => .ok ((y, g) :: r)
    | .error e, _ => .error e
    | .ok _, .error e => .error e

/-- The whole index `useEffect` body applied to a fetched index: group the
`.json` files by year, then sort each year's bucket by calendar month. -/
def groupPatches (files : List String) : Except String (List (String × List String)) :=
  sortGroups (buildGroups files)

/-- Specification-side description of the files a year bucket should hold:
the input files that carry the `.json` extension and whose `split("-")[0]`
prefix equals the year key, in input order. -/
def keptFor (y : String) (files : List String) : List String :=
  files.filter (fun f => hasJsonExt f && (yearOf f == y))

/-- The `ProductInfo` record of the source: display name and category of one
product. -/
structure ProductInfo where
  name : String
  category : String
deriving DecidableEq

/-- One affected-product reference of a vulnerability record. -/
structure AffectedProduct where
  id : String
  name : String
  category : String
deriving DecidableEq

/-- The `Vulnerability` record of the source.  `cvss_score` is `number | null`
in the source; the absent score is modelled as `none` and is distinct from a
score of exactly `0`. -/
structure Vulnerability where
  cve : String
  title : String
  cvss_score : Option ℚ
  exploited : Bool
  exploitation_likely : Bool
  threat_types : List String
  affected_products : List AffectedProduct
deriving DecidableEq

/-- The `Metadata` block of one month's payload. -/
structure Metadata where
  title : String
  tracking_id : String
  release_date : String
  current_release_date : String
  total_vulnerabilities : Nat
  processed_date : String
  script_version : String
deriving DecidableEq

/-- One month's full payload (`PatchTuesdayData` in the source).  The
`products` object (`Record<string, ProductInfo>`) is modelled as an
association list from product id to product info. -/
structure PatchTuesdayData where
  metadata : Metadata
  products : List (String × ProductInfo)
  vulnerabilities : List Vulnerability
deriving DecidableEq

/-- The fixed threat-type enumeration `VULN_TYPES` from the source. -/
def VULN_TYPES : List String :=
  ["Elevation of Privilege", "Security Feature Bypass", "Remote Code Execution",
   "Information Disclosure", "Denial of Service", "Spoofing", "Edge - Chromium"]

/-- The severity classifier `getCvssSeverity` from the source, translated
guard for guard: `null` and exactly `0` map to `"None"`, then the thresholds
`3.9`, `6.9`, `8.9` are tested in order. -/
def getCvssSeverity (score : Option ℚ) : String :=
  match score with
  | none => "None"
  | some s =>
    if s = 0 then "None"
    else if s ≤ 3.9 then "Low"
    else if s ≤ 6.9 then "Medium"
    else if s ≤ 8.9 then "High"
    else "Critical"

/-- The display-name mapping `displayCategory` from the source. -/
def displayCategory (cat : String) : String :=
  if cat = "Mariner" then "Azure Linux (CBL-Mariner)" else cat

/-- The line `const cvssScores = vulns.map((v) => v.cvss_score).filter((s): s
is number => s !== null)` of `getSummaryStats`: the scores of exactly the
records that possess one, in record order. -/
def cvssScoresOf (vulns : List Vulnerability) : List ℚ :=
  (vulns.map (fun v => v.cvss_score)).filterMap id

/-- The result record of `getSummaryStats`. -/
structure SummaryStats where
  total : Nat
  exploited : Nat
  likely : Nat
  high : Nat
  critical : Nat
  avg : ℚ
  byType : List (String × Nat)
deriving DecidableEq

/-- The summary aggregator `getSummaryStats` from the source, field for
field.  The JavaScript guard `cvssScores.length ? sum / length : 0` is the
conditional on `cvssScores` being nonempty; `Object.fromEntries` over the
distinct keys of `VULN_TYPES` is the association list `byType`. -/
def getSummaryStats (vulns : List Vulnerability) : SummaryStats :=
  let cvssScores := cvssScoresOf vulns
  { total := vulns.length
    exploited := (vulns.filter (fun v => v.exploited)).length
    likely := (vulns.filter (fun v => v.exploitation_likely)).length
    high := (cvssScores.filter (fun s => decide ((7.0 : ℚ) ≤ s))).length
    critical := (cvssScores.filter (fun s => decide ((9.0 : ℚ) ≤ s))).length
    avg := if cvssScores.length ≠ 0 then cvssScores.sum / (cvssScores.length : ℚ) else 0
    byType := VULN_TYPES.map (fun t =>
      (t, (vulns.filter (fun v => v.threat_types.contains t)).length)) }

/-- The score a record sorts by: `a.cvss_score ?? 0`. -/
def sortScore (v : Vulnerability) : ℚ := v.cvss_score.getD 0

/-- Descending comparator order (`bScore - aScore` nonpositive). -/
def scoreDescLE (a b : Vulnerability) : Prop := sortScore b ≤ sortScore a

/-- Ascending comparator order (`aScore - bScore` nonpositive). -/
def scoreAscLE (a b : Vulnerability) : Prop := sortScore a ≤ sortScore b

instance : DecidableRel scoreDescLE := fun a b => Rat.instDecidableLe (sortScore b) (sortScore a)

instance : DecidableRel scoreAscLE := fun a b => Rat.instDecidableLe (sortScore a) (sortScore b)

instance : IsTotal Vulnerability scoreDescLE := ⟨fun a b => le_total (sortScore b) (sortScore a)⟩

instance : IsTrans Vulnerability scoreDescLE := ⟨fun _ _ _ h1 h2 => le_trans h2 h1⟩

instance : IsTotal Vulnerability scoreAscLE := ⟨fun a b => le_total (sortScore a) (sortScore b)⟩

instance : IsTrans Vulnerability scoreAscLE := ⟨fun _ _ _ h1 h2 => le_trans h1 h2⟩

/-- The filter `useEffect` body: an empty `selectedCategory` string is falsy
and keeps all records, otherwise a record is kept when some affected product's
raw `category` equals the selection; an empty `cvssSort` string is falsy and
leaves the filtered order untouched, otherwise the copy `[...vulns]` is stably
sorted by `cvss_score ?? 0`, descending exactly when the selection is
`"desc"`. -/
def filterSortVulns (vulns : List Vulnerability) (selectedCategory : String)
    (cvssSort : String) : List Vulnerability :=
  let v := if selectedCategory = "" then vulns
    else vulns.filter (fun vu =>
      vu.affected_products.any (fun p => p.category == selectedCategory))
  if cvssSort = "" then v
  else if cvssSort = "desc" then List.insertionSort scoreDescLE v
  else List.insertionSort scoreAscLE v

/-- The component state the month `useEffect` reads and writes. -/
structure LoaderState where
  data : Option PatchTuesdayData
  categories : List String
  selectedCategory : String
  cvssSort : String
  showSummary : Bool
deriving DecidableEq

/-- The success branch of the month fetch: store the dataset, derive the
sorted distinct category list from the product mapping
(`Array.from(new Set(Object.values(json.products).map((p) => p.category))).sort()`,
modelled as deduplication followed by a stable sort under the string order),
reset the category filter to the falsy default `""` and switch the summary
back on.  No other state field is written. -/
def onMonthSuccess (st : LoaderState) (json : PatchTuesdayData) : LoaderState :=
  { st with
    data := some json
    categories :=
      List.insertionSort (fun a b => a ≤ b)
        ((json.products.map (fun p => p.2.category)).dedup)
    selectedCategory := ""
    showSummary := true }

/-- The catch branch of the month fetch: drop the dataset and the category
list.  No other state field is written. -/
def onMonthFailure (st : LoaderState) : LoaderState :=
  { st with data := none, categories := [] }

/-- The settled month fetch as one state transition.  A network error, a
non-ok HTTP status (`if (!res.ok) throw ...`) and a JSON parse failure all
reject the promise chain and reach the same `catch`, so they arrive here as
one `Except.error`; the second component is the `console.error` diagnostic the
handler emits.  Both handlers are total: no exception escapes the chain. -/
def loadMonthResult (st : LoaderState) (r : Except String PatchTuesdayData) :
    LoaderState × Option String :=
  match r with
  | .ok json => (onMonthSuccess st json, none)
  | .error e => (onMonthFailure st, some ("Error loading patch content: " ++ e))

/-! Helper lemmas about the index grouper. -/

lemma idxOf?_eq_none_iff (x : String) (l : List String) : idxOf? x l = none ↔ x ∉ l := by
  induction l with
  | nil => simp [idxOf?]
  | cons y l ih =>
    by_cases h : y = x
    · subst h; simp [idxOf?]
    · simp [idxOf?, h, Option.map_eq_none', ih, Ne.symm h]

lemma jsIndexOf_of_not_mem {x : String} {l : List String} (h : x ∉ l) :
    jsIndexOf l x = -1 := by
  simp [jsIndexOf, (idxOf?_eq_none_iff x l).mpr h]

lemma jsIndexOf_nonneg_of_mem {x : String} {l : List String} (h : x ∈ l) :
    0 ≤ jsIndexOf l x := by
  rcases ho : idxOf? x l with _ | i
  · exact absurd ((idxOf?_eq_none_iff x l).mp ho) (by simpa using h)
  · simp [jsIndexOf, ho]

lemma monthKey_of_unrecognized {f m : String} (hm : monthTok f = some m)
    (h : m ∉ MONTH_ORDER) : monthKey f = -1 := by
  simp [monthKey, hm, jsIndexOf_of_not_mem h]

lemma monthKey_of_recognized {f m : String} (hm : monthTok f = some m)
    (h : m ∈ MONTH_ORDER) : 0 ≤ monthKey f := by
  simpa [monthKey, hm] using jsIndexOf_nonneg_of_mem h

lemma lookup_insertGroup_self (g : List (String × List String)) (k v : String) :
    (insertGroup g k v).lookup k = some (((g.lookup k).getD []) ++ [v]) := by
  induction g with
  | nil => simp [insertGroup, List.lookup]
  | cons p rest ih =>
    obtain ⟨k', vs⟩ := p
    by_cases h : k' = k
    · subst h; simp [insertGroup, List.lookup]
    · simp [insertGroup, h, List.lookup, beq_eq_false_iff_ne.mpr (Ne.symm h), ih]

lemma lookup_insertGroup_ne (g : List (String × List String)) (k v y : String)
    (h : y ≠ k) : (insertGroup g k v).lookup y = g.lookup y := by
  induction g with
  | nil => simp [insertGroup, List.lookup, beq_eq_false_iff_ne.mpr h]
  | cons p rest ih =>
    obtain ⟨k', vs⟩ := p
    by_cases hk : k' = k
    · subst hk; simp [insertGroup, List.lookup, beq_eq_false_iff_ne.mpr h]
    · by_cases hy : y = k'
      · subst hy; simp [insertGroup, hk, List.lookup]
      · simp [insertGroup, hk, List.lookup, beq_eq_false_iff_ne.mpr hy, ih]

lemma keptFor_cons (y f : String) (files : List String) :
    keptFor y (f :: files) =
      if hasJsonExt f ∧ yearOf f = y then f :: keptFor y files else keptFor y files := by
  by_cases hext : hasJsonExt f
  · by_cases hy : yearOf f = y
    · simp [keptFor, List.filter_cons, hext, hy]
    · simp [keptFor, List.filter_cons, hext, hy]
  · simp [keptFor, List.filter_cons, hext]

lemma lookup_foldl_addFile (files : List String) :
    ∀ (g : List (String × List String)) (y : String),
      (files.foldl addFile g).lookup y =
        match g.lookup y with
        | some vs => some (vs ++ keptFor y files)
        | none => if keptFor y files = [] then none else some (keptFor y files) := by
  induction files with
  | nil =>
    intro g y
    cases h : g.lookup y <;> simp [keptFor, h]
  | cons f rest ih =>
    intro g y
    rw [List.foldl_cons, ih]
    by_cases hext : hasJsonExt f
    · by_cases hy : yearOf f = y
      · have hstep : addFile g f = insertGroup g (yearOf f) f := by simp [addFile, hext]
        rw [hstep, hy]
        cases hg : g.lookup y with
        | none => simp [lookup_insertGroup_self, hg, keptFor_cons, hext, hy]
        | some vs => simp [lookup_insertGroup_self, hg, keptFor_cons, hext, hy]
      · have hstep : addFile g f = insertGroup g (yearOf f) f := by simp [addFile, hext]
        rw [hstep, lookup_insertGroup_ne _ _ _ _ (fun hc => hy hc.symm)]
        simp [keptFor_cons, hy]
    · have hstep : addFile g f = g := by simp [addFile, hext]
      rw [hstep]
      simp [keptFor_cons, hext]

lemma buildGroups_lookup (files : List String) (y : String) :
    (buildGroups files).lookup y =
      if keptFor y files = [] then none else some (keptFor y files) := by
  rw [buildGroups, lookup_foldl_addFile]
  simp [List.lookup]

lemma keys_insertGroup (g : List (String × List String)) (k v : String) :
    (insertGroup g k v).map Prod.fst =
      if k ∈ g.map Prod.fst then g.map Prod.fst else g.map Prod.fst ++ [k] := by
  induction g with
  | nil => simp [insertGroup]
  | cons p rest ih =>
    obtain ⟨k', vs⟩ := p
    by_cases h : k' = k
    · subst h; simp [insertGroup]
    · by_cases hm : k ∈ rest.map Prod.fst
      · simp [insertGroup, h, ih, hm, Ne.symm h]
      · simp [insertGroup, h, ih, hm, Ne.symm h]

lemma nodup_keys_insertGroup (g : List (String × List String)) (k v : String)
    (h : (g.map Prod.fst).Nodup) : ((insertGroup g k v).map Prod.fst).Nodup := by
  rw [keys_insertGroup]
  split
  · exact h
  · next hmem => simp [List.nodup_append, h, hmem]

lemma nodup_keys_foldl_addFile (files : List String) :
    ∀ g : List (String × List String), (g.map Prod.fst).Nodup →
      ((files.foldl addFile g).map Prod.fst).Nodup := by
  induction files with
  | nil => intro g h; simpa using h
  | cons f rest ih =>
    intro g h
    rw [List.foldl_cons]
    refine ih _ ?_
    by_cases hext : hasJsonExt f
    · simpa [addFile, hext] using nodup_keys_insertGroup g (yearOf f) f h
    · simpa [addFile, hext] using h

lemma nodup_keys_buildGroups (files : List String) :
    ((buildGroups files).map Prod.fst).Nodup :=
  nodup_keys_foldl_addFile files [] (by simp)

lemma lookup_eq_some_of_mem {g : List (String × List String)}
    (hnd : (g.map Prod.fst).Nodup) {y : String} {vs : List String}
    (h : (y, vs) ∈ g) : g.lookup y = some vs := by
  induction g with
  | nil => simp at h
  | cons p rest ih =>
    obtain ⟨k', vs'⟩ := p
    rcases List.mem_cons.mp h with heq | hmem
    · injection heq with h1 h2
      subst h1; subst h2
      simp [List.lookup]
    · have hne : y ≠ k' := by
        intro hc
        subst hc
        have : y ∈ rest.map Prod.fst := List.mem_map.mpr ⟨(y, vs), hmem, rfl⟩
        exact (List.nodup_cons.mp (by simpa using hnd)).1 this
      simp only [List.lookup, beq_eq_false_iff_ne.mpr hne]
      exact ih (List.nodup_cons.mp (by simpa using hnd)).2 hmem

lemma mem_of_lookup_eq_some {g : List (String × List String)} {y : String}
    {vs : List String} (h : g.lookup y = some vs) : (y, vs) ∈ g := by
  induction g with
  | nil => simp [List.lookup] at h
  | cons p rest ih =>
    obtain ⟨k', vs'⟩ := p
    by_cases hk : y = k'
    · subst hk
      simp only [List.lookup, beq_self_eq_true] at h
      injection h with h
      subst h
      exact List.mem_cons_self _ _
    · simp only [List.lookup, beq_eq_false_iff_ne.mpr hk] at h
      exact List.mem_cons_of_mem _ (ih h)

lemma buildGroups_mem_iff {files : List String} {y : String} {vs : List String} :
    (y, vs) ∈ buildGroups files ↔ keptFor y files ≠ [] ∧ vs = keptFor y files := by
  constructor
  · intro h
    have hl := lookup_eq_some_of_mem (nodup_keys_buildGroups files) h
    rw [buildGroups_lookup] at hl
    by_cases hk : keptFor y files = []
    · rw [if_pos hk] at hl; exact absurd hl (by simp)
    · rw [if_neg hk] at hl
      injection hl with hl
      exact ⟨hk, hl.symm⟩
  · rintro ⟨hne, rfl⟩
    exact mem_of_lookup_eq_some (by rw [buildGroups_lookup, if_neg hne])

lemma sortMonths_ok_perm {vs s : List String} (h : sortMonths vs = .ok s) :
    s.Perm vs := by
  unfold sortMonths at h
  split_ifs at h with h1 h2
  · injection h with h; exact h ▸ List.Perm.refl vs
  · injection h with h; exact h ▸ List.perm_insertionSort monthLE vs

lemma sortMonths_ok_sorted {vs s : List String} (h : sortMonths vs = .ok s) :
    List.Pairwise monthLE s := by
  unfold sortMonths at h
  split_ifs at h with h1 h2
  · injection h with h
    subst h
    match vs, h1 with
    | [], _ => exact List.Pairwise.nil
    | [a], _ => simp
  · injection h with h
    exact h ▸ List.sorted_insertionSort monthLE vs

lemma sortMonths_ok_of_all {vs : List String}
    (h : ∀ f ∈ vs, (monthTok f).isSome = true) : ∃ s, sortMonths vs = .ok s := by
  unfold sortMonths
  split_ifs with h1 h2
  · exact ⟨vs, rfl⟩
  · exact ⟨_, rfl⟩
  · exact absurd (List.all_eq_true.mpr h) h2

lemma sortGroups_ok_forall {g : List (String × List String)}
    {out : List (String × List String)} (h : sortGroups g = .ok out) :
    List.Forall₂ (fun p q => p.1 = q.1 ∧ sortMonths p.2 = .ok q.2) g out := by
  induction g generalizing out with
  | nil =>
    unfold sortGroups at h
    injection h with h
    exact h ▸ List.Forall₂.nil
  | cons p rest ih =>
    obtain ⟨y, vs⟩ := p
    unfold sortGroups at h
    rcases hs : sortMonths vs with e | s <;> rcases hr : sortGroups rest with e' | r <;>
        rw [hs, hr] at h
    · exact absurd h (by simp)
    · exact absurd h (by simp)
    · exact absurd h (by simp)
    · injection h with h
      exact h ▸ List.Forall₂.cons ⟨rfl, hs⟩ (ih hr)

lemma forall₂_mem_left {α β : Type} {R : α → β → Prop} {l₁ : List α} {l₂ : List β}
    (h : List.Forall₂ R l₁ l₂) {a : α} (ha : a ∈ l₁) : ∃ b ∈ l₂, R a b := by
  induction h with
  | nil => simp at ha
  | cons hr _ ih =>
    rcases List.mem_cons.mp ha with rfl | ha'
    · exact ⟨_, List.mem_cons_self _ _, hr⟩
    · obtain ⟨b, hb, hrb⟩ := ih ha'
      exact ⟨b, List.mem_cons_of_mem _ hb, hrb⟩

lemma forall₂_mem_right {α β : Type} {R : α → β → Prop} {l₁ : List α} {l₂ : List β}
    (h : List.Forall₂ R l₁ l₂) {b : β} (hb : b ∈ l₂) : ∃ a ∈ l₁, R a b := by
  induction h with
  | nil => simp at hb
  | cons hr _ ih =>
    rcases List.mem_cons.mp hb with rfl | hb'
    · exact ⟨_, List.mem_cons_self _ _, hr⟩
    · obtain ⟨a, ha, hra⟩ := ih hb'
      exact ⟨a, List.mem_cons_of_mem _ ha, hra⟩

/-- Membership characterization of a successful grouping: `(y, g)` is a group
of the output exactly when the files kept for `y` are nonempty and `g` is that
bucket, sorted. -/
lemma groupPatches_mem {files : List String} {out : List (String × List String)}
    (hok : groupPatches files = .ok out) {y : String} {g : List String}
    (hmem : (y, g) ∈ out) :
    g.Perm (keptFor y files) ∧ List.Pairwise monthLE g ∧ keptFor y files ≠ [] := by
  obtain ⟨⟨y', vs⟩, hin, hy, hs⟩ := forall₂_mem_right (sortGroups_ok_forall hok) hmem
  rcases hy
  obtain ⟨hne, rfl⟩ := buildGroups_mem_iff.mp hin
  exact ⟨sortMonths_ok_perm hs, sortMonths_ok_sorted hs, hne⟩

/-- Completeness of a successful grouping: every kept file appears in the
output bucket of its year. -/
lemma groupPatches_complete {files : List String} {out : List (String × List String)}
    (hok : groupPatches files = .ok out) {f : String} (hf : f ∈ files)
    (hext : hasJsonExt f = true) : ∃ g, (yearOf f, g) ∈ out ∧ f ∈ g := by
  have hkept : f ∈ keptFor (yearOf f) files := by
    simp [keptFor, List.mem_filter, hf, hext]
  have hne : keptFor (yearOf f) files ≠ [] := by
    intro hc; rw [hc] at hkept; simp at hkept
  have hin : (yearOf f, keptFor (yearOf f) files) ∈ buildGroups files :=
    buildGroups_mem_iff.mpr ⟨hne, rfl⟩
  obtain ⟨⟨y', s⟩, hout, hy, hs⟩ := forall₂_mem_left (sortGroups_ok_forall hok) hin
  rcases hy
  exact ⟨s, hout, ((sortMonths_ok_perm hs).mem_iff).mpr hkept⟩

/-! Helper lemmas about the summary aggregator. -/

lemma cvssScoresOf_cons (v : Vulnerability) (l : List Vulnerability) :
    cvssScoresOf (v :: l) =
      match v.cvss_score with
      | some s => s :: cvssScoresOf l
      | none => cvssScoresOf l := by
  cases h : v.cvss_score <;> simp [cvssScoresOf, h]

lemma getSummaryStats_high (vulns : List Vulnerability) :
    (getSummaryStats vulns).high
      = ((cvssScoresOf vulns).filter (fun s => decide ((7.0 : ℚ) ≤ s))).length := rfl

lemma getSummaryStats_critical (vulns : List Vulnerability) :
    (getSummaryStats vulns).critical
      = ((cvssScoresOf vulns).filter (fun s => decide ((9.0 : ℚ) ≤ s))).length := rfl

lemma getSummaryStats_avg (vulns : List Vulnerability) :
    (getSummaryStats vulns).avg
      = if (cvssScoresOf vulns).length ≠ 0 then
          (cvssScoresOf vulns).sum / ((cvssScoresOf vulns).length : ℚ)
        else 0 := rfl

lemma getSummaryStats_byType (vulns : List Vulnerability) :
    (getSummaryStats vulns).byType
      = VULN_TYPES.map (fun t =>
          (t, (vulns.filter (fun v => v.threat_types.contains t)).length)) := rfl

lemma scores_filter_count (p : ℚ → Bool) (vulns : List Vulnerability) :
    ((cvssScoresOf vulns).filter p).length
      = vulns.countP (fun v => v.cvss_score.elim false p) := by
  induction vulns with
  | nil => rfl
  | cons v l ih =>
    cases h : v.cvss_score with
    | none => simp [cvssScoresOf_cons, h, List.countP_cons, ih]
    | some s =>
      by_cases hp : p s <;>
        simp [cvssScoresOf_cons, h, List.countP_cons, List.filter_cons, hp, ih]

lemma length_filter_mono {p q : ℚ → Bool} (h : ∀ s, p s = true → q s = true)
    (l : List ℚ) : (l.filter p).length ≤ (l.filter q).length := by
  induction l with
  | nil => simp
  | cons a l ih =>
    rw [List.filter_cons, List.filter_cons]
    by_cases hp : p a = true
    · rw [if_pos hp, if_pos (h a hp)]
      simpa using ih
    · rw [if_neg hp]
      by_cases hq : q a = true
      · rw [if_pos hq]
        exact le_trans ih (Nat.le_succ _)
      · rw [if_neg hq]
        exact ih

lemma lookup_map_self {β : Type} (f : String → β) (l : List String) (t : String)
    (ht : t ∈ l) : (l.map (fun s => (s, f s))).lookup t = some (f t) := by
  induction l with
  | nil => simp at ht
  | cons a l ih =>
    by_cases h : t = a
    · subst h; simp [List.lookup]
    · have hmem : t ∈ l := by
        rcases List.mem_cons.mp ht with rfl | hmem
        · exact absurd rfl h
        · exact hmem
      simp only [List.map_cons, List.lookup, beq_eq_false_iff_ne.mpr h]
      exact ih hmem

/-! Concrete records used by the worked examples in the claims. -/

/-- Example record carrying score 9.5. -/
def vulnA : Vulnerability :=
  { cve := "CVE-2025-0001", title := "Sample RCE", cvss_score := some 9.5,
    exploited := true, exploitation_likely := false,
    threat_types := ["Remote Code Execution"],
    affected_products := [{ id := "1", name := "Windows 11", category := "Windows" }] }

/-- Example record carrying score 7.0. -/
def vulnB : Vulnerability :=
  { cve := "CVE-2025-0002", title := "Sample Spoofing", cvss_score := some 7.0,
    exploited := false, exploitation_likely := true,
    threat_types := ["Spoofing", "Remote Code Execution"],
    affected_products := [{ id := "2", name := "Edge", category := "ESU" }] }

/-- Example record with no score. -/
def vulnN : Vulnerability :=
  { cve := "CVE-2025-0003", title := "Sample Unscored", cvss_score := none,
    exploited := false, exploitation_likely := false,
    threat_types := [], affected_products := [] }

/-! Concrete loader state and dataset used by the claim C8 counterexample. -/

/-- Example metadata block. -/
def metaEx : Metadata :=
  { title := "July 2025 Security Updates", tracking_id := "2025-Jul",
    release_date := "2025-07-08", current_release_date := "2025-07-08",
    total_vulnerabilities := 2, processed_date := "2025-07-09",
    script_version := "1.0" }

/-- Example month dataset. -/
def dataEx : PatchTuesdayData :=
  { metadata := metaEx,
    products := [("11655", { name := "Windows 11", category := "Windows" }),
                 ("10047", { name := "Edge", category := "ESU" })],
    vulnerabilities := [vulnA, vulnB] }

/-- Example pre-load state with an active sort order and category filter. -/
def stEx : LoaderState :=
  { data := none, categories := [], selectedCategory := "Windows",
    cvssSort := "desc", showSummary := false }

/-! The claims. -/

/-- C1: for every record sequence, `getSummaryStats` counts as High exactly
the records whose present score is at least 7.0 and as Critical exactly those
whose present score is at least 9.0; the two counts are independent (a record
scoring at least 9.0 is counted in both), and for each of the seven enumerated
threat types the per-type entry counts exactly the records whose tag list
contains that type.  On the two-record example with scores 9.5 and 7.0 this
gives high = 2, critical = 1 and average 8.25. -/
theorem summary_threshold_and_type_counts (vulns : List Vulnerability) (t : String)
    (ht : t ∈ VULN_TYPES) :
    (getSummaryStats vulns).high
        = vulns.countP (fun v => v.cvss_score.elim false (fun s => decide ((7.0 : ℚ) ≤ s)))
    ∧ (getSummaryStats vulns).critical
        = vulns.countP (fun v => v.cvss_score.elim false (fun s => decide ((9.0 : ℚ) ≤ s)))
    ∧ (getSummaryStats vulns).critical ≤ (getSummaryStats vulns).high
    ∧ (getSummaryStats vulns).byType.lookup t
        = some (vulns.countP (fun v => v.threat_types.contains t))
    ∧ (getSummaryStats [vulnA, vulnB]).high = 2
    ∧ (getSummaryStats [vulnA, vulnB]).critical = 1
    ∧ (getSummaryStats [vulnA, vulnB]).avg = 8.25 := by
  have hsc : cvssScoresOf [vulnA, vulnB] = [9.5, 7.0] := rfl
  refine ⟨?_, ?_, ?_, ?_, ?_, ?_, ?_⟩
  · rw [getSummaryStats_high]; exact scores_filter_count _ vulns
  · rw [getSummaryStats_critical]; exact scores_filter_count _ vulns
  · rw [getSummaryStats_high, getSummaryStats_critical]
    refine length_filter_mono (fun s h9 => ?_) (cvssScoresOf vulns)
    rw [decide_eq_true_eq] at h9 ⊢
    linarith
  · rw [getSummaryStats_byType, lookup_map_self _ _ _ ht, List.countP_eq_length_filter]
  · rw [getSummaryStats_high, hsc]
    norm_num [List.filter_cons]
  · rw [getSummaryStats_critical, hsc]
    norm_num [List.filter_cons]
  · rw [getSummaryStats_avg, hsc]
    norm_num

/-- Witness for `summary_threshold_and_type_counts` at a concrete record list
and threat type. -/
theorem summary_threshold_and_type_counts_witness :
    ("Spoofing" ∈ VULN_TYPES)
    ∧ (getSummaryStats [vulnA, vulnB]).byType.lookup "Spoofing"
        = some (([vulnA, vulnB] : List Vulnerability).countP
            (fun v => v.threat_types.contains "Spoofing")) :=
  ⟨by decide,
   (summary_threshold_and_type_counts [vulnA, vulnB] "Spoofing" (by decide)).2.2.2.1⟩

/-- C2: the severity classifier is total with range
{None, Low, Medium, High, Critical}, returns the claimed label on each of the
eight enumerated inputs, and on every score follows the ordered rule: absent
or exactly 0 gives None, then the thresholds 3.9, 6.9, 8.9 delimit Low,
Medium, High, and everything above is Critical. -/
theorem getCvssSeverity_spec (s : Option ℚ) (x : ℚ) :
    getCvssSeverity s ∈ (["None", "Low", "Medium", "High", "Critical"] : List String)
    ∧ getCvssSeverity none = "None"
    ∧ getCvssSeverity (some 0) = "None"
    ∧ getCvssSeverity (some 3.9) = "Low"
    ∧ getCvssSeverity (some 4.0) = "Medium"
    ∧ getCvssSeverity (some 6.9) = "Medium"
    ∧ getCvssSeverity (some 7.0) = "High"
    ∧ getCvssSeverity (some 8.9) = "High"
    ∧ getCvssSeverity (some 9.0) = "Critical"
    ∧ (x ≠ 0 → x ≤ 3.9 → getCvssSeverity (some x) = "Low")
    ∧ (3.9 < x → x ≤ 6.9 → getCvssSeverity (some x) = "Medium")
    ∧ (6.9 < x → x ≤ 8.9 → getCvssSeverity (some x) = "High")
    ∧ (8.9 < x → getCvssSeverity (some x) = "Critical") := by
  refine ⟨?_, rfl, ?_, ?_, ?_, ?_, ?_, ?_, ?_, ?_, ?_, ?_, ?_⟩
  · cases s with
    | none => simp [getCvssSeverity]
    | some v =>
      simp only [getCvssSeverity]
      split_ifs <;> simp
  · simp [getCvssSeverity]
  · simp only [getCvssSeverity]; norm_num
  · simp only [getCvssSeverity]; norm_num
  · simp only [getCvssSeverity]; norm_num
  · simp only [getCvssSeverity]; norm_num
  · simp only [getCvssSeverity]; norm_num
  · simp only [getCvssSeverity]; norm_num
  · intro h0 h1
    simp only [getCvssSeverity]
    rw [if_neg h0, if_pos h1]
  · intro h1 h2
    have h0 : ¬x = 0 := by intro hc; rw [hc] at h1; norm_num at h1
    simp only [getCvssSeverity]
    rw [if_neg h0, if_neg (not_le.mpr h1), if_pos h2]
  · intro h1 h2
    have h0 : ¬x = 0 := by intro hc; rw [hc] at h1; norm_num at h1
    have h3 : ¬x ≤ 3.9 := not_le.mpr (lt_trans (by norm_num) h1)
    simp only [getCvssSeverity]
    rw [if_neg h0, if_neg h3, if_neg (not_le.mpr h1), if_pos h2]
  · intro h1
    have h0 : ¬x = 0 := by intro hc; rw [hc] at h1; norm_num at h1
    have h3 : ¬x ≤ 3.9 := not_le.mpr (lt_trans (by norm_num) h1)
    have h4 : ¬x ≤ 6.9 := not_le.mpr (lt_trans (by norm_num) h1)
    simp only [getCvssSeverity]
    rw [if_neg h0, if_neg h3, if_neg h4, if_neg (not_le.mpr h1)]

/-- Witness for `getCvssSeverity_spec`, exercising each interval rule at a
concrete score. -/
theorem getCvssSeverity_spec_witness :
    getCvssSeverity (some 2) = "Low" ∧ getCvssSeverity (some 5) = "Medium"
    ∧ getCvssSeverity (some 8) = "High" ∧ getCvssSeverity (some 9.5) = "Critical" :=
  ⟨(getCvssSeverity_spec (some 2) 2).2.2.2.2.2.2.2.2.2.1 (by norm_num) (by norm_num),
   (getCvssSeverity_spec (some 5) 5).2.2.2.2.2.2.2.2.2.2.1 (by norm_num) (by norm_num),
   (getCvssSeverity_spec (some 8) 8).2.2.2.2.2.2.2.2.2.2.2.1 (by norm_num) (by norm_num),
   (getCvssSeverity_spec (some 9.5) 9.5).2.2.2.2.2.2.2.2.2.2.2.2 (by norm_num)⟩

/-- C4: with a nonempty category selected and no sort direction, the filter
retains exactly the records having at least one affected-product reference
whose raw `category` string equals the selection (case-sensitively, not the
display-mapped label, which differs from the raw value on `"Mariner"`),
preserves the original relative order, and yields the empty list — not an
error — when nothing matches. -/
theorem filter_category_spec (vulns : List Vulnerability) (cat : String)
    (v : Vulnerability) (hcat : cat ≠ "") :
    (v ∈ filterSortVulns vulns cat "" ↔
        v ∈ vulns ∧ ∃ p ∈ v.affected_products, p.category = cat)
    ∧ (filterSortVulns vulns cat "").Sublist vulns
    ∧ ((∀ u ∈ vulns, ∀ p ∈ u.affected_products, p.category ≠ cat) →
        filterSortVulns vulns cat "" = [])
    ∧ displayCategory "Mariner" ≠ "Mariner" := by
  have hdef : filterSortVulns vulns cat "" =
      vulns.filter (fun vu => vu.affected_products.any (fun p => p.category == cat)) := by
    simp [filterSortVulns, hcat]
  refine ⟨?_, ?_, ?_, by decide⟩
  · rw [hdef]
    simp [List.mem_filter, List.any_eq_true]
  · rw [hdef]; exact List.filter_sublist vulns
  · intro hno
    rw [hdef]
    refine List.filter_eq_nil_iff.mpr ?_
    intro u hu
    simp only [List.any_eq_true, beq_iff_eq]
    push_neg
    intro p hp
    exact hno u hu p hp

/-- Witness for `filter_category_spec` at a concrete record list and
category. -/
theorem filter_category_spec_witness :
    (vulnA ∈ filterSortVulns [vulnA, vulnB] "Windows" "" ↔
      vulnA ∈ [vulnA, vulnB] ∧ ∃ p ∈ vulnA.affected_products, p.category = "Windows") :=
  (filter_category_spec [vulnA, vulnB] "Windows" vulnA (by decide)).1

/-- C6: for every record sequence and either sort direction, the sorted view
is a permutation of the unsorted filtered view (so descending and ascending
results are multiset-equal), it is ordered by `cvss_score ?? 0` in the chosen
direction, and the multiset of severity labels is unchanged by sorting —
treating an absent score as 0 is only an ordering convenience.  The embedding
is a pure function, so the source sequence itself is never mutated. -/
theorem filterSort_permutation_spec (vulns : List Vulnerability) (cat : String) :
    ((filterSortVulns vulns cat "desc").Perm (filterSortVulns vulns cat ""))
    ∧ ((filterSortVulns vulns cat "asc").Perm (filterSortVulns vulns cat ""))
    ∧ ((filterSortVulns vulns cat "desc").Perm (filterSortVulns vulns cat "asc"))
    ∧ List.Pairwise scoreDescLE (filterSortVulns vulns cat "desc")
    ∧ List.Pairwise scoreAscLE (filterSortVulns vulns cat "asc")
    ∧ ((filterSortVulns vulns cat "desc").map (fun u => getCvssSeverity u.cvss_score)).Perm
        ((filterSortVulns vulns cat "").map (fun u => getCvssSeverity u.cvss_score)) := by
  have hd : filterSortVulns vulns cat "desc"
      = List.insertionSort scoreDescLE (filterSortVulns vulns cat "") := rfl
  have ha : filterSortVulns vulns cat "asc"
      = List.insertionSort scoreAscLE (filterSortVulns vulns cat "") := rfl
  have pd := List.perm_insertionSort scoreDescLE (filterSortVulns vulns cat "")
  have pa := List.perm_insertionSort scoreAscLE (filterSortVulns vulns cat "")
  refine ⟨hd ▸ pd, ha ▸ pa, ?_, ?_, ?_, ?_⟩
  · rw [hd, ha]; exact pd.trans pa.symm
  · rw [hd]; exact List.sorted_insertionSort scoreDescLE _
  · rw [ha]; exact List.sorted_insertionSort scoreAscLE _
  · exact (hd ▸ pd).map _

/-- C5: the average is the arithmetic mean over exactly the records that
possess a score — a scoreless record contributes to neither numerator nor
denominator — it is 0 (not an error) when no record has a score, and on the
empty sequence every count and the average are 0. -/
theorem summary_average_spec (vulns : List Vulnerability) (v : Vulnerability)
    (hne : cvssScoresOf vulns ≠ []) (hnone : v.cvss_score = none) :
    (getSummaryStats vulns).avg
        = (cvssScoresOf vulns).sum / ((cvssScoresOf vulns).length : ℚ)
    ∧ (getSummaryStats (vulns ++ [v])).avg = (getSummaryStats vulns).avg
    ∧ (∀ w : List Vulnerability, cvssScoresOf w = [] → (getSummaryStats w).avg = 0)
    ∧ (getSummaryStats []).total = 0
    ∧ (getSummaryStats []).exploited = 0
    ∧ (getSummaryStats []).high = 0
    ∧ (getSummaryStats []).critical = 0
    ∧ (getSummaryStats []).avg = 0 := by
  have happ : cvssScoresOf (vulns ++ [v]) = cvssScoresOf vulns := by
    simp [cvssScoresOf, hnone]
  refine ⟨?_, ?_, ?_, rfl, rfl, rfl, rfl, rfl⟩
  · rw [getSummaryStats_avg,
      if_pos (fun hc => hne (List.length_eq_zero.mp hc))]
  · rw [getSummaryStats_avg, getSummaryStats_avg, happ]
  · intro w hw
    rw [getSummaryStats_avg, hw]
    simp

/-- Witness for `summary_average_spec` at a concrete record list. -/
theorem summary_average_spec_witness :
    (getSummaryStats [vulnA, vulnB]).avg
      = (cvssScoresOf [vulnA, vulnB]).sum / ((cvssScoresOf [vulnA, vulnB]).length : ℚ) :=
  (summary_average_spec [vulnA, vulnB] vulnN
    (by simp [cvssScoresOf, vulnA, vulnB]) rfl).1

/-- C3: on every input on which grouping completes, identifiers without the
expected extension appear in no group, every `.json` identifier is grouped
under its `split("-")[0]` year prefix, each output group is a permutation of
the kept files of its year ordered by the calendar position of its month
token in the fixed 12-entry table (not lexicographically), and the spec's
example input produces calendar order Jan before Dec. -/
theorem grouper_spec (files : List String) (out : List (String × List String))
    (y f : String) (g : List String) (hok : groupPatches files = .ok out) :
    ((y, g) ∈ out → g.Perm (keptFor y files) ∧ List.Pairwise monthLE g)
    ∧ (f ∈ files → hasJsonExt f = true → ∃ g', (yearOf f, g') ∈ out ∧ f ∈ g')
    ∧ (hasJsonExt f = false → ∀ y' g', (y', g') ∈ out → f ∉ g')
    ∧ groupPatches ["2024-Dec.json", "2024-Jan.json"]
        = .ok [("2024", ["2024-Jan.json", "2024-Dec.json"])]
    ∧ monthKey "2024-Jan.json" < monthKey "2024-Dec.json" := by
  refine ⟨?_, ?_, ?_, rfl, by decide⟩
  · intro hmem
    obtain ⟨h1, h2, _⟩ := groupPatches_mem hok hmem
    exact ⟨h1, h2⟩
  · intro hf hext
    exact groupPatches_complete hok hf hext
  · intro hext y' g' hmem hfin
    obtain ⟨h1, _, _⟩ := groupPatches_mem hok hmem
    have hk : f ∈ keptFor y' files := h1.mem_iff.mp hfin
    simp [keptFor, List.mem_filter, hext] at hk

/-- Witness for `grouper_spec` on the spec's example index. -/
theorem grouper_spec_witness :
    (["2024-Jan.json", "2024-Dec.json"] : List String).Perm
        (keptFor "2024" ["2024-Dec.json", "2024-Jan.json"])
    ∧ List.Pairwise monthLE ["2024-Jan.json", "2024-Dec.json"] :=
  (grouper_spec ["2024-Dec.json", "2024-Jan.json"]
      [("2024", ["2024-Jan.json", "2024-Dec.json"])] "2024" "x"
      ["2024-Jan.json", "2024-Dec.json"] rfl).1 (by decide)

/-- C7 counterexample: `"foo.json"` carries the expected extension but has no
year-month separator, so its year/month prefix is unparseable; the grouper
nevertheless keeps it, under a year key equal to the whole identifier — and on
a list putting two such identifiers in one bucket, the sort comparator
dereferences an `undefined` month segment, so grouping faults rather than
completing, contradicting both halves of the claim. -/
theorem grouper_unparseable_counterexample :
    monthTok "foo.json" = none
    ∧ groupPatches ["foo.json"] = .ok [("foo.json", ["foo.json"])]
    ∧ groupPatches ["foo.json", "foo.json"]
        = .error "TypeError: cannot read property replace of undefined" :=
  ⟨rfl, rfl, rfl⟩

/-- C7 amended: only identifiers without the `.json` extension are excluded —
whenever grouping completes, every `.json` identifier appears in the output
under its prefix before the first separator (the whole name when it has
none) even if its year/month prefix is unparseable; and grouping is not
total: on an input that puts two separator-less identifiers in one bucket the
month-sort comparator dereferences an `undefined` segment and grouping faults
instead of completing. -/
theorem grouper_inclusion_spec (files : List String) (f : String)
    (out : List (String × List String)) (hok : groupPatches files = .ok out)
    (hf : f ∈ files) (hext : hasJsonExt f = true) :
    (∃ g, (yearOf f, g) ∈ out ∧ f ∈ g)
    ∧ monthTok "foo.json" = none
    ∧ groupPatches ["foo.json"] = .ok [("foo.json", ["foo.json"])]
    ∧ groupPatches ["foo.json", "foo.json"]
        = .error "TypeError: cannot read property replace of undefined" :=
  ⟨groupPatches_complete hok hf hext, rfl, rfl, rfl⟩

/-- Witness for `grouper_inclusion_spec` at the unparseable-but-kept
identifier. -/
theorem grouper_inclusion_spec_witness :
    ∃ g, (yearOf "foo.json", g) ∈ [("foo.json", ["foo.json"])] ∧ "foo.json" ∈ g :=
  (grouper_inclusion_spec ["foo.json"] "foo.json"
      [("foo.json", ["foo.json"])] rfl (by decide) (by decide)).1

/-- C8 counterexample: after a successful month load performed with the score
sort set to `"desc"`, the sort selection is still `"desc"`, not the default
empty selection — the success handler resets only the category filter, never
the sort order. -/
theorem month_success_keeps_sort_counterexample :
    (onMonthSuccess stEx dataEx).cvssSort = "desc" ∧ ("desc" : String) ≠ "" :=
  ⟨rfl, by decide⟩

/-- C8 amended: when a month fetch succeeds the new state stores the dataset,
its category list is the lexicographically sorted set of distinct category
values of the product mapping, the category filter is reset to its default,
but the score sort order keeps whatever value it had before the load. -/
theorem month_success_state (st : LoaderState) (json : PatchTuesdayData) :
    (onMonthSuccess st json).data = some json
    ∧ (onMonthSuccess st json).selectedCategory = ""
    ∧ (onMonthSuccess st json).cvssSort = st.cvssSort
    ∧ List.Sorted (fun a b : String => a ≤ b) (onMonthSuccess st json).categories
    ∧ (onMonthSuccess st json).categories.Nodup
    ∧ (∀ c : String, c ∈ (onMonthSuccess st json).categories ↔
        ∃ pr ∈ json.products, (pr : String × ProductInfo).2.category = c) := by
  have hcats : (onMonthSuccess st json).categories
      = List.insertionSort (fun a b : String => a ≤ b)
          ((json.products.map (fun p => p.2.category)).dedup) := rfl
  have hperm := List.perm_insertionSort (fun a b : String => a ≤ b)
      ((json.products.map (fun p => p.2.category)).dedup)
  refine ⟨rfl, rfl, rfl, ?_, ?_, ?_⟩
  · rw [hcats]; exact List.sorted_insertionSort _ _
  · rw [hcats]; exact hperm.nodup_iff.mpr (List.nodup_dedup _)
  · intro c
    rw [hcats, hperm.mem_iff, List.mem_dedup, List.mem_map]

/-- C9: every failed month fetch — network error, non-ok status or malformed
payload all reject into the same catch — clears the displayed dataset and its
category list, records a diagnostic, leaves the state exactly
`onMonthFailure st`, and any two failure causes produce identical states; the
transition is a total function, so no exception escapes to the presentation
layer. -/
theorem month_failure_spec (st : LoaderState) (e e₂ : String) :
    (loadMonthResult st (.error e)).1.data = none
    ∧ (loadMonthResult st (.error e)).1.categories = []
    ∧ (loadMonthResult st (.error e)).2.isSome = true
    ∧ (loadMonthResult st (.error e)).1 = (loadMonthResult st (.error e₂)).1
    ∧ (loadMonthResult st (.error e)).1 = onMonthFailure st :=
  ⟨rfl, rfl, rfl, rfl, rfl⟩

/-- C10: within a year group whose members all have month segments, a member
whose extracted month token is not in the 12-entry table gets comparator key
`-1`, strictly below the key of every member with a recognized token, so the
group sorts without error into a permutation in which no recognized-month
entry precedes an unrecognized-month one — unrecognized entries sit at the
front rather than being excluded or faulting. -/
theorem unrecognized_month_first (g : List String) (a b ma mb : String)
    (hall : ∀ f ∈ g, (monthTok f).isSome = true)
    (hma : monthTok a = some ma) (hmanot : ma ∉ MONTH_ORDER)
    (hmb : monthTok b = some mb) (hmbin : mb ∈ MONTH_ORDER) :
    monthKey a < monthKey b
    ∧ ∃ s, sortMonths g = .ok s ∧ s.Perm g
        ∧ List.Pairwise (fun x z =>
            (∃ m, monthTok z = some m ∧ m ∉ MONTH_ORDER) →
            (∃ m, monthTok x = some m ∧ m ∉ MONTH_ORDER)) s := by
  have hlt : monthKey a < monthKey b := by
    rw [monthKey_of_unrecognized hma hmanot]
    exact lt_of_lt_of_le (by norm_num) (monthKey_of_recognized hmb hmbin)
  obtain ⟨s, hs⟩ := sortMonths_ok_of_all hall
  refine ⟨hlt, s, hs, sortMonths_ok_perm hs, ?_⟩
  refine List.Pairwise.imp_of_mem ?_ (sortMonths_ok_sorted hs)
  intro x z hx _ hle
  rintro ⟨m, hmz, hmnot⟩
  have hzkey := monthKey_of_unrecognized hmz hmnot
  have hxs : (monthTok x).isSome = true :=
    hall x (((sortMonths_ok_perm hs).mem_iff).mp hx)
  rcases hmx : monthTok x with _ | mx
  · rw [hmx] at hxs; simp at hxs
  · refine ⟨mx, rfl, ?_⟩
    intro hin
    have h0 := monthKey_of_recognized hmx hin
    have hle' : monthKey x ≤ monthKey z := hle
    rw [hzkey] at hle'
    omega

/-- Witness for `unrecognized_month_first` on a two-file year group with one
unrecognized month token. -/
theorem unrecognized_month_first_witness :
    monthKey "2024-Foo.json" < monthKey "2024-Jan.json"
    ∧ ∃ s, sortMonths ["2024-Jan.json", "2024-Foo.json"] = .ok s
        ∧ s.Perm ["2024-Jan.json", "2024-Foo.json"]
        ∧ List.Pairwise (fun x z =>
            (∃ m, monthTok z = some m ∧ m ∉ MONTH_ORDER) →
            (∃ m, monthTok x = some m ∧ m ∉ MONTH_ORDER)) s :=
  unrecognized_month_first ["2024-Jan.json", "2024-Foo.json"]
    "2024-Foo.json" "2024-Jan.json" "Foo" "Jan"
    (by decide) rfl (by decide) rfl (by decide)

end PatchSite
